import Mathlib

/-!
Verification of the bd2wg resource-resolution and download core.

Shallow embedding of:
- `crates/bd2wg/src/services/resolver.rs` (dedup resolver),
- `crates/bd2wg/src/services/downloader/pool.rs` (worker pool),
- `crates/bd2wg/src/services/downloader/service.rs` (plain / compound downloads),
- `crates/bd2wg/src/services/pipeline/download.rs` (download pipeline),
with the data model from `models/bestdori/resource.rs`, `models/webgal/resource.rs`,
`traits/resolve.rs`, `traits/pipeline.rs` and `error.rs`.
-/

namespace Bd2wg

/-! ### Data model: models/bestdori/resource.rs -/

/-- `ResourceType` from models/bestdori/resource.rs (Bestdori side). -/
inductive BResourceType where
  | Bandori
  | Custom
  | Common
deriving DecidableEq

/-- `ResourcePath` from models/bestdori/resource.rs:
either a raw url or a file (with optional bundle). -/
inductive BResourcePath where
  | Url (url : String)
  | File (file : String) (bundle : Option String)
deriving DecidableEq

/-- `Resource` from models/bestdori/resource.rs. -/
structure BResource where
  kind : BResourceType
  path : BResourcePath
deriving DecidableEq

/-- `BESTDORI_ASSET_URL_ROOT` from models/bestdori/resource.rs. -/
def BESTDORI_ASSET_URL_ROOT : String := "https://bestdori.com/assets/jp/"

/-- `BESTDORI_ASSET_URL_SE` from models/bestdori/resource.rs. -/
def BESTDORI_ASSET_URL_SE : String := "https://bestdori.com/res/CommonSE/"

/-- `BESTDORI_ASSET_URL_MODEL` from models/bestdori/resource.rs. -/
def BESTDORI_ASSET_URL_MODEL : String := "https://bestdori.com/assets/jp/live2d/chara/"

/-- `BESTDORI_ASSET_URL_MODEL_BUILDER` from models/bestdori/resource.rs. -/
def BESTDORI_ASSET_URL_MODEL_BUILDER : String := "buildData.asset"

/-! ### Data model: models/webgal/resource.rs -/

/-- `ResourceType` from models/webgal/resource.rs (WebGAL side). -/
inductive WResourceType where
  | Background
  | Bgm
  | Vocal
  | Figure
deriving DecidableEq

/-- `Resource` from models/webgal/resource.rs: the canonical resource
`\x7b kind, url, relative path \x7d` produced by the resolver. -/
structure WResource where
  kind : WResourceType
  url : String
  path : String
deriving DecidableEq

/-- Directory name of a WebGAL resource kind (strum camelCase serialization of the
variant name, used by `Resource::default_relative_path`). -/
def WResourceType.dirName : WResourceType → String
  | .Background => "background"
  | .Bgm => "bgm"
  | .Vocal => "vocal"
  | .Figure => "figure"

/-- `Resource::default_relative_path` from models/webgal/resource.rs. -/
def WResource.default_relative_path (r : WResource) : String :=
  r.kind.dirName ++ "/" ++ r.path

/-- `Asset::relative_path` for `webgal::Resource` from models/webgal/resource.rs:
figures get the fixed manifest file name appended. -/
def WResource.relative_path (r : WResource) : String :=
  match r.kind with
  | .Figure => r.default_relative_path ++ "/model.json"
  | _ => r.default_relative_path

/-! ### Helpers: utils.rs -/

/-- Character sanitization of `gen_name_from_url` from utils.rs. -/
def sanitizeChar (c : Char) : Char :=
  if c = ':' ∨ c = '?' ∨ c = '*' ∨ c = '"' ∨ c = '<' ∨ c = '>' ∨ c = '|'
      ∨ c = '\\' ∨ c = '/' ∨ c = ' ' then '_' else c

/-- `gen_name_from_url` from utils.rs: sanitize the url characters and append
the extension. -/
def gen_name_from_url (url extend : String) : String :=
  String.mk (url.data.map sanitizeChar ++ extend.data)

/-- ASCII lowercase of one character (`make_ascii_lowercase`). -/
def asciiToLower (c : Char) : Char :=
  if 'A' ≤ c ∧ c ≤ 'Z' then Char.ofNat (c.toNat + 32) else c

/-- Whether a character is ASCII alphabetic (`is_ascii_alphabetic`). -/
def isAsciiAlphabetic (c : Char) : Bool :=
  ('A' ≤ c ∧ c ≤ 'Z') ∨ ('a' ≤ c ∧ c ≤ 'z')

/-- Recursion for `lower_first_alphabetic`: lowercase the first ASCII letter. -/
def lowerFirstAux : List Char → List Char
  | [] => []
  | c :: cs =>
    if isAsciiAlphabetic c then asciiToLower c :: cs else c :: lowerFirstAux cs

/-- `lower_first_alphabetic` from utils.rs. -/
def lower_first_alphabetic (s : String) : String :=
  String.mk (lowerFirstAux s.data)

/-! ### Resolver: services/resolver.rs and traits/resolve.rs -/

/-- `RESOURCE_IMAGE_EXTEND` from services/resolver.rs. -/
def RESOURCE_IMAGE_EXTEND : String := ".png"

/-- `RESOURCE_SOUND_EXTEND` from services/resolver.rs. -/
def RESOURCE_SOUND_EXTEND : String := ".mp3"

/-- The `get_extend!` macro from services/resolver.rs: `none` models the
macro's early `return None`. -/
def get_extend : WResourceType → Option String
  | .Background => some RESOURCE_IMAGE_EXTEND
  | .Bgm | .Vocal => some RESOURCE_SOUND_EXTEND
  | .Figure => none

/-- `ResourceType` from traits/resolve.rs (the resolver category:
Image / Bgm / Se). -/
inductive RResourceType where
  | Image
  | Bgm
  | Se
deriving DecidableEq

/-- `ResolveError` from error.rs: carries the category and the offending
descriptor. -/
structure ResolveError where
  kind : RResourceType
  resource : BResource
deriving DecidableEq

/-- `ResourceKey` from services/resolver.rs. -/
inductive ResourceKey where
  | Normal (res : BResource) (kind : RResourceType)
  | Model (costume : String)
deriving DecidableEq

/-- `ResourceEntry` from traits/resolve.rs. `Occupied` in the source holds a raw
pointer to the stored `Arc<webgal::Resource>`; here it holds the pointed-to
value (which `AsRef` dereferences to). -/
inductive ResourceEntry where
  | Vacant (res : WResource)
  | Occupied (res : WResource)
deriving DecidableEq

/-- `ResourceEntry::is_vacant` from traits/resolve.rs. -/
def ResourceEntry.is_vacant : ResourceEntry → Bool
  | .Vacant _ => true
  | .Occupied _ => false

/-- The canonical resource an entry references (`AsRef` impl of traits/resolve.rs:
deref of the Arc / the raw pointer). -/
def ResourceEntry.resource : ResourceEntry → WResource
  | .Vacant r => r
  | .Occupied r => r

/-- `Resolver::resolve_custom` from services/resolver.rs. -/
def resolve_custom (res : BResourcePath) (kind : WResourceType) : Option WResource :=
  match res with
  | .Url url =>
    match get_extend kind with
    | some ext => some { kind := kind, url := url, path := gen_name_from_url url ext }
    | none => none
  | _ => none

/-- `Resolver::resolve_bundle` from services/resolver.rs. -/
def resolve_bundle (res : BResourcePath) (kind : WResourceType) : Option WResource :=
  match res with
  | .File file (some bundle) =>
    match get_extend kind with
    | some ext =>
      some { kind := kind,
             url := BESTDORI_ASSET_URL_ROOT ++ bundle ++ "_rip/" ++ file,
             path := bundle ++ "-" ++ file ++ ext }
    | none => none
  | _ => none

/-- `Resolver::resolve_image` from services/resolver.rs. -/
def resolve_image (res : BResource) : Option WResource :=
  match res.kind with
  | .Custom => resolve_custom res.path .Background
  | .Bandori => resolve_bundle res.path .Background
  | .Common => none

/-- `Resolver::resolve_bgm` from services/resolver.rs. -/
def resolve_bgm (res : BResource) : Option WResource :=
  match res with
  | ⟨.Custom, path⟩ => resolve_custom path .Bgm
  | ⟨.Bandori, .File file none⟩ =>
    let file := file ++ RESOURCE_SOUND_EXTEND
    some { kind := .Bgm,
           url := BESTDORI_ASSET_URL_ROOT ++ lower_first_alphabetic file ++ "_rip/" ++ file,
           path := file }
  | _ => none

/-- `Resolver::resolve_se` from services/resolver.rs. -/
def resolve_se (res : BResource) : Option WResource :=
  match res with
  | ⟨.Custom, path⟩ => resolve_custom path .Vocal
  | ⟨.Bandori, .File file (some bundle)⟩ =>
    let file := file ++ RESOURCE_SOUND_EXTEND
    some { kind := .Vocal,
           url := BESTDORI_ASSET_URL_ROOT ++ bundle ++ "_rip/" ++ file,
           path := file }
  | ⟨.Common, .File file none⟩ =>
    let file := file ++ RESOURCE_SOUND_EXTEND
    some { kind := .Vocal,
           url := BESTDORI_ASSET_URL_SE ++ file,
           path := file }
  | _ => none

/-- `Resolver::resolve` from services/resolver.rs. -/
def resolve (res : BResource) (kind : RResourceType) : Option WResource :=
  match kind with
  | .Image => resolve_image res
  | .Bgm => resolve_bgm res
  | .Se => resolve_se res

/-- `Resolver` from services/resolver.rs. The `HashMap` is modelled as an
association list; `Entry`-based check-and-insert preserves all lookups. -/
structure Resolver where
  resource : List (ResourceKey × WResource)
deriving DecidableEq

/-- `Resolver::new` from services/resolver.rs (Default: empty cache). -/
def Resolver.new : Resolver := ⟨[]⟩

/-- Cache lookup (the `HashMap::entry` probe of `get_or_insert`). -/
def Resolver.lookup (r : Resolver) (key : ResourceKey) : Option WResource :=
  (r.resource.find? (fun p => decide (p.1 = key))).map (fun p => p.2)

/-- `Resolver::get_or_insert` from services/resolver.rs: occupied keys return the
stored resource untouched; vacant keys evaluate `call` and insert on success
(`call()?` propagates the error before any insertion happens). The returned
resolver is the post-state of `&mut self`. -/
def Resolver.get_or_insert (r : Resolver) (key : ResourceKey)
    (call : Unit → Except ResolveError WResource) :
    Except ResolveError ResourceEntry × Resolver :=
  match r.lookup key with
  | some v => (.ok (.Occupied v), r)
  | none =>
    match call () with
    | .ok v => (.ok (.Vacant v), ⟨(key, v) :: r.resource⟩)
    | .error e => (.error e, r)

/-- `Resolver::resolve_normal` from services/resolver.rs. -/
def Resolver.resolve_normal (r : Resolver) (res : BResource) (kind : RResourceType) :
    Except ResolveError ResourceEntry × Resolver :=
  r.get_or_insert (.Normal res kind)
    (fun _ =>
      match resolve res kind with
      | some v => .ok v
      | none => .error ⟨kind, res⟩)

/-- The canonical figure resource built by `Resolver::resolve_model`
(services/resolver.rs). -/
def model_resource (costume : String) : WResource :=
  { kind := .Figure,
    url := BESTDORI_ASSET_URL_MODEL ++ costume ++ "_rip/" ++ BESTDORI_ASSET_URL_MODEL_BUILDER,
    path := costume ++ "/" }

/-- `Resolver::get_or_insert` specialized to a `call` that always succeeds
(the shape used by `resolve_model`, whose trailing `.unwrap()` is justified by
`get_or_insert_ok_eq` below). -/
def Resolver.get_or_insert_ok (r : Resolver) (key : ResourceKey) (v : WResource) :
    ResourceEntry × Resolver :=
  match r.lookup key with
  | some w => (.Occupied w, r)
  | none => (.Vacant v, ⟨(key, v) :: r.resource⟩)

/-- `Resolver::resolve_model` from services/resolver.rs. -/
def Resolver.resolve_model (r : Resolver) (costume : String) : ResourceEntry × Resolver :=
  r.get_or_insert_ok (.Model costume) (model_resource costume)

theorem Resolver.get_or_insert_ok_eq (r : Resolver) (key : ResourceKey) (v : WResource) :
    r.get_or_insert key (fun _ => .ok v) =
      ((.ok (r.get_or_insert_ok key v).1 : Except ResolveError ResourceEntry),
        (r.get_or_insert_ok key v).2) := by
  unfold Resolver.get_or_insert Resolver.get_or_insert_ok
  cases r.lookup key <;> rfl

/-! ### Resolver call traces (for the dedup invariant) -/

/-- One call through the `Resolve` trait: either `resolve_normal` or
`resolve_model`. -/
inductive ResolveCall where
  | normal (res : BResource) (kind : RResourceType)
  | model (costume : String)
deriving DecidableEq

/-- The cache key a call addresses. -/
def ResolveCall.key : ResolveCall → ResourceKey
  | .normal res kind => .Normal res kind
  | .model costume => .Model costume

/-- Observable outcome of one resolve call. -/
inductive CallOutcome where
  | entry (e : ResourceEntry)
  | failed (e : ResolveError)
deriving DecidableEq

/-- Whether an outcome observed a vacant cache entry. -/
def CallOutcome.isVacantEntry : CallOutcome → Bool
  | .entry (.Vacant _) => true
  | _ => false

/-- Apply one resolve call to the resolver state. -/
def Resolver.applyCall (r : Resolver) (c : ResolveCall) : CallOutcome × Resolver :=
  match c with
  | .normal res kind =>
    match r.resolve_normal res kind with
    | (.ok e, r2) => (.entry e, r2)
    | (.error err, r2) => (.failed err, r2)
  | .model costume =>
    let p := r.resolve_model costume
    (.entry p.1, p.2)

/-- Run a sequence of resolve calls and keep the outcomes of those calls that
address the key `k`. -/
def Resolver.outcomesFor (r : Resolver) (cs : List ResolveCall) (k : ResourceKey) :
    List CallOutcome :=
  match cs with
  | [] => []
  | c :: cs =>
    let p := r.applyCall c
    if c.key = k then p.1 :: p.2.outcomesFor cs k else p.2.outcomesFor cs k

/-- The canonical resource a key resolves to, if any: what `resolve` computes for
normal keys, and the deterministic figure resource for model keys. -/
def canonical : ResourceKey → Option WResource
  | .Normal res kind => resolve res kind
  | .Model costume => some (model_resource costume)

/-- Resolver cache invariant: every stored entry is the canonical resource of
its key. Holds for every resolver reachable from `Resolver.new`. -/
def Resolver.Inv (r : Resolver) : Prop :=
  ∀ key v, (key, v) ∈ r.resource → canonical key = some v

theorem Resolver.inv_new : Resolver.new.Inv := by
  intro key v h
  simp [Resolver.new] at h

theorem Resolver.lookup_canonical {r : Resolver} (hr : r.Inv) {key : ResourceKey}
    {v : WResource} (h : r.lookup key = some v) : canonical key = some v := by
  unfold Resolver.lookup at h
  cases hfind : r.resource.find? (fun p => decide (p.1 = key)) with
  | none => rw [hfind] at h; simp at h
  | some p =>
    rw [hfind] at h
    simp at h
    have hmem := List.mem_of_find?_eq_some hfind
    have hkey := List.find?_some hfind
    simp at hkey
    subst hkey
    rw [← h]
    exact hr _ _ hmem

theorem Resolver.lookup_cons (key k : ResourceKey) (v : WResource)
    (l : List (ResourceKey × WResource)) :
    Resolver.lookup ⟨(k, v) :: l⟩ key =
      if k = key then some v else Resolver.lookup ⟨l⟩ key := by
  unfold Resolver.lookup
  by_cases h : k = key <;> simp [List.find?, h]

theorem Resolver.inv_insert {r : Resolver} (hr : r.Inv) {key : ResourceKey}
    {v : WResource} (hc : canonical key = some v) :
    Resolver.Inv ⟨(key, v) :: r.resource⟩ := by
  intro k w hmem
  rcases List.mem_cons.mp hmem with h | h
  · simp at h
    obtain ⟨rfl, rfl⟩ := h
    exact hc
  · exact hr _ _ h

theorem Resolver.applyCall_occupied {r : Resolver} {c : ResolveCall} {v : WResource}
    (h : r.lookup c.key = some v) :
    r.applyCall c = (.entry (.Occupied v), r) := by
  cases c with
  | normal res kind =>
    have hk : r.lookup (.Normal res kind) = some v := h
    simp [Resolver.applyCall, Resolver.resolve_normal, Resolver.get_or_insert, hk]
  | model costume =>
    have hk : r.lookup (.Model costume) = some v := h
    simp [Resolver.applyCall, Resolver.resolve_model, Resolver.get_or_insert_ok, hk]

theorem Resolver.applyCall_vacant {r : Resolver} {c : ResolveCall} {v : WResource}
    (h : r.lookup c.key = none) (hc : canonical c.key = some v) :
    r.applyCall c = (.entry (.Vacant v), ⟨(c.key, v) :: r.resource⟩) := by
  cases c with
  | normal res kind =>
    have hk : r.lookup (.Normal res kind) = none := h
    have hres : resolve res kind = some v := hc
    simp [Resolver.applyCall, Resolver.resolve_normal, Resolver.get_or_insert, hk, hres,
      ResolveCall.key]
  | model costume =>
    have hk : r.lookup (.Model costume) = none := h
    have hv : model_resource costume = v := Option.some.inj hc
    subst hv
    simp [Resolver.applyCall, Resolver.resolve_model, Resolver.get_or_insert_ok, hk,
      ResolveCall.key]

theorem Resolver.applyCall_failed_normal {r : Resolver} {res : BResource}
    {kind : RResourceType} (h : r.lookup (.Normal res kind) = none)
    (hc : resolve res kind = none) :
    r.applyCall (.normal res kind) = (.failed ⟨kind, res⟩, r) := by
  simp [Resolver.applyCall, Resolver.resolve_normal, Resolver.get_or_insert, h, hc]

theorem Resolver.applyCall_inv {r : Resolver} (hr : r.Inv) (c : ResolveCall) :
    (r.applyCall c).2.Inv := by
  cases hcase : r.lookup c.key with
  | some v =>
    rw [Resolver.applyCall_occupied hcase]
    exact hr
  | none =>
    cases hcan : canonical c.key with
    | some v =>
      rw [Resolver.applyCall_vacant hcase hcan]
      exact Resolver.inv_insert hr hcan
    | none =>
      cases c with
      | normal res kind =>
        rw [Resolver.applyCall_failed_normal hcase hcan]
        exact hr
      | model costume => exact absurd hcan (by simp [canonical, ResolveCall.key])

theorem Resolver.applyCall_lookup_some {r : Resolver} (c : ResolveCall)
    {k : ResourceKey} {v : WResource} (h : r.lookup k = some v) :
    (r.applyCall c).2.lookup k = some v := by
  cases hcase : r.lookup c.key with
  | some w =>
    rw [Resolver.applyCall_occupied hcase]
    exact h
  | none =>
    cases hcan : canonical c.key with
    | some w =>
      rw [Resolver.applyCall_vacant hcase hcan]
      have hne : c.key ≠ k := by
        intro he
        rw [he, h] at hcase
        cases hcase
      rw [Resolver.lookup_cons]
      simp only [if_neg hne]
      exact h
    | none =>
      cases c with
      | normal res kind =>
        rw [Resolver.applyCall_failed_normal hcase hcan]
        exact h
      | model costume => exact absurd hcan (by simp [canonical, ResolveCall.key])

theorem Resolver.applyCall_lookup_none {r : Resolver} (c : ResolveCall)
    {k : ResourceKey} (hcan : canonical k = none) (h : r.lookup k = none) :
    (r.applyCall c).2.lookup k = none := by
  cases hcase : r.lookup c.key with
  | some w =>
    rw [Resolver.applyCall_occupied hcase]
    exact h
  | none =>
    cases hcan2 : canonical c.key with
    | some w =>
      rw [Resolver.applyCall_vacant hcase hcan2]
      have hne : c.key ≠ k := by
        intro he
        rw [he, hcan] at hcan2
        cases hcan2
      rw [Resolver.lookup_cons]
      simp only [if_neg hne]
      exact h
    | none =>
      cases c with
      | normal res kind =>
        rw [Resolver.applyCall_failed_normal hcase hcan2]
        exact h
      | model costume => exact absurd hcan2 (by simp [canonical, ResolveCall.key])

theorem Resolver.outcomesFor_cons (r : Resolver) (c : ResolveCall)
    (cs : List ResolveCall) (k : ResourceKey) :
    r.outcomesFor (c :: cs) k =
      if c.key = k then (r.applyCall c).1 :: (r.applyCall c).2.outcomesFor cs k
      else (r.applyCall c).2.outcomesFor cs k := rfl

/-- Every entry observed for a key references the key's canonical resource. -/
theorem Resolver.outcomesFor_entries :
    ∀ (cs : List ResolveCall) (r : Resolver) (k : ResourceKey), r.Inv →
      ∀ o ∈ r.outcomesFor cs k, ∀ e, o = .entry e → canonical k = some e.resource := by
  intro cs
  induction cs with
  | nil =>
    intro r k _ o ho
    simp [Resolver.outcomesFor] at ho
  | cons c cs ih =>
    intro r k hr o ho e hoe
    rw [Resolver.outcomesFor_cons] at ho
    by_cases hk : c.key = k
    · rw [if_pos hk] at ho
      cases hcase : r.lookup c.key with
      | some v =>
        rw [Resolver.applyCall_occupied hcase] at ho
        rcases List.mem_cons.mp ho with hohd | hotl
        · subst hohd
          cases hoe
          rw [← hk]
          exact Resolver.lookup_canonical hr hcase
        · exact ih r k hr o hotl e hoe
      | none =>
        cases hcan : canonical c.key with
        | some v =>
          rw [Resolver.applyCall_vacant hcase hcan] at ho
          rcases List.mem_cons.mp ho with hohd | hotl
          · subst hohd
            cases hoe
            rw [← hk]
            exact hcan
          · exact ih _ k (Resolver.inv_insert hr hcan) o hotl e hoe
        | none =>
          cases c with
          | normal res kind =>
            rw [Resolver.applyCall_failed_normal hcase hcan] at ho
            rcases List.mem_cons.mp ho with hohd | hotl
            · subst hohd
              cases hoe
            · exact ih r k hr o hotl e hoe
          | model costume => exact absurd hcan (by simp [canonical, ResolveCall.key])
    · rw [if_neg hk] at ho
      exact ih _ k (Resolver.applyCall_inv hr c) o ho e hoe

/-- Once the key is cached, no later call observes vacant. -/
theorem Resolver.outcomesFor_no_vacant_of_cached :
    ∀ (cs : List ResolveCall) (r : Resolver) (k : ResourceKey) (v : WResource),
      r.lookup k = some v →
      (r.outcomesFor cs k).countP CallOutcome.isVacantEntry = 0 := by
  intro cs
  induction cs with
  | nil =>
    intro r k v _
    simp [Resolver.outcomesFor]
  | cons c cs ih =>
    intro r k v h
    rw [Resolver.outcomesFor_cons]
    by_cases hk : c.key = k
    · rw [if_pos hk]
      have hck : r.lookup c.key = some v := by rw [hk]; exact h
      rw [Resolver.applyCall_occupied hck, List.countP_cons, ih r k v h]
      simp [CallOutcome.isVacantEntry]
    · rw [if_neg hk]
      exact ih _ k v (Resolver.applyCall_lookup_some c h)

/-- At most one call per key ever observes vacant. -/
theorem Resolver.outcomesFor_vacant_le_one :
    ∀ (cs : List ResolveCall) (r : Resolver) (k : ResourceKey), r.Inv →
      (r.outcomesFor cs k).countP CallOutcome.isVacantEntry ≤ 1 := by
  intro cs
  induction cs with
  | nil =>
    intro r k _
    simp [Resolver.outcomesFor]
  | cons c cs ih =>
    intro r k hr
    rw [Resolver.outcomesFor_cons]
    by_cases hk : c.key = k
    · rw [if_pos hk]
      cases hcase : r.lookup c.key with
      | some v =>
        have hlk : r.lookup k = some v := by rw [← hk]; exact hcase
        rw [Resolver.applyCall_occupied hcase, List.countP_cons,
          Resolver.outcomesFor_no_vacant_of_cached cs r k v hlk]
        simp [CallOutcome.isVacantEntry]
      | none =>
        cases hcan : canonical c.key with
        | some v =>
          rw [Resolver.applyCall_vacant hcase hcan, List.countP_cons]
          have hafter : Resolver.lookup ⟨(c.key, v) :: r.resource⟩ k = some v := by
            rw [Resolver.lookup_cons, if_pos hk]
          rw [Resolver.outcomesFor_no_vacant_of_cached cs _ k v hafter]
          simp [CallOutcome.isVacantEntry]
        | none =>
          cases c with
          | normal res kind =>
            rw [Resolver.applyCall_failed_normal hcase hcan, List.countP_cons]
            simp [CallOutcome.isVacantEntry]
            exact ih r k hr
          | model costume => exact absurd hcan (by simp [canonical, ResolveCall.key])
    · rw [if_neg hk]
      exact ih _ k (Resolver.applyCall_inv hr c)

/-- A key whose descriptor never resolves always fails with the same error
(carrying the category and the descriptor) and never observes any entry. -/
theorem Resolver.outcomesFor_unresolvable :
    ∀ (cs : List ResolveCall) (r : Resolver) (res : BResource) (kind : RResourceType),
      r.Inv → resolve res kind = none → r.lookup (.Normal res kind) = none →
      ∀ o ∈ r.outcomesFor cs (.Normal res kind), o = .failed ⟨kind, res⟩ := by
  intro cs
  induction cs with
  | nil =>
    intro r res kind _ _ _ o ho
    simp [Resolver.outcomesFor] at ho
  | cons c cs ih =>
    intro r res kind hr hres hnone o ho
    rw [Resolver.outcomesFor_cons] at ho
    by_cases hk : c.key = ResourceKey.Normal res kind
    · rw [if_pos hk] at ho
      cases c with
      | normal res2 kind2 =>
        have hinj : res2 = res ∧ kind2 = kind := by
          have : ResourceKey.Normal res2 kind2 = ResourceKey.Normal res kind := hk
          cases this
          exact ⟨rfl, rfl⟩
        obtain ⟨rfl, rfl⟩ := hinj
        rw [Resolver.applyCall_failed_normal hnone hres] at ho
        rcases List.mem_cons.mp ho with hohd | hotl
        · exact hohd
        · exact ih r _ _ hr hres hnone o hotl
      | model costume => cases hk
    · rw [if_neg hk] at ho
      have hcan : canonical (ResourceKey.Normal res kind) = none := hres
      exact ih _ res kind (Resolver.applyCall_inv hr c)
        hres (Resolver.applyCall_lookup_none c hcan hnone) o ho

/-! ### Download pool: services/downloader/pool.rs -/

/-- `CLIENT_COUNT` from services/downloader/pool.rs. -/
def CLIENT_COUNT : Nat := 4

/-- `TASK_TIMEOUT` (seconds) from services/downloader/pool.rs. -/
def TASK_TIMEOUT_SECS : Nat := 16

/-- `TASK_MAX_RETRIES` from services/downloader/pool.rs. -/
def TASK_MAX_RETRIES : Nat := 3

/-- `CLIENT_RESTART_FAILURE_THRESHOLD` from services/downloader/pool.rs. -/
def CLIENT_RESTART_FAILURE_THRESHOLD : Nat := 5

/-- `CLIENT_RESTART_BACKOFF` (seconds) from services/downloader/pool.rs. -/
def CLIENT_RESTART_BACKOFF_SECS : Nat := 8

/-- `CLIENT_RESTART_LIMIT` from services/downloader/pool.rs. -/
def CLIENT_RESTART_LIMIT : Nat := 3

/-- `DownloadTask` from services/downloader/pool.rs: per-job retry counter plus
the shared cancel flag. The single-use result channel is identified by `id`;
delivered results appear as `PoolEvent.sent id _ _`. -/
structure DownloadTask where
  count : Nat
  id : Nat
  cancelFlag : Bool
deriving DecidableEq

/-- Observable effects of the worker loop:
`sent id attempts ok` - a result was delivered on the task's channel
(`attempts` is the task's failure counter at delivery time, `ok` whether the
result was bytes or an error);
`dropped id` - the `DownloadTask` was dropped, which stores `true` into its
shared cancel flag (`impl Drop for DownloadTask`);
`slept secs` - the worker slept for the backoff;
`rebuilt ok` - the worker attempted to rebuild its client. -/
inductive PoolEvent where
  | sent (id : Nat) (attempts : Nat) (ok : Bool)
  | dropped (id : Nat)
  | slept (secs : Nat)
  | rebuilt (ok : Bool)
deriving DecidableEq

/-- Outcome of one network attempt, as classified by `handle_response` /
`handle_response_ok`: `success` (2xx and body read and decompression all fine),
`reqError` (transport error, timeout, non-2xx status, or body read error - the
branches that reach `increment_failure_and_maybe_retry`), `ioError`
(decompression failure - sent immediately as `DownloadErrorKind::Io`, no retry). -/
inductive AttemptOutcome where
  | success
  | reqError
  | ioError
deriving DecidableEq

/-- `DownloadPoolWorker` state from services/downloader/pool.rs. `client` is the
generation number of the reqwest client (a rebuild that succeeds replaces it by
a fresh generation). -/
structure Worker where
  count : Nat
  restart_count : Nat
  successes_since_restart : Nat
  client : Nat
  tasks : List DownloadTask
deriving DecidableEq

/-- `DownloadPoolWorker::increment_failure_and_maybe_retry` from
services/downloader/pool.rs lines 282-290. -/
def Worker.increment_failure_and_maybe_retry (w : Worker) (t : DownloadTask) :
    Worker × List PoolEvent :=
  let t2 : DownloadTask := { t with count := t.count + 1 }
  let w2 : Worker := { w with count := w.count + 1 }
  if TASK_MAX_RETRIES ≤ t2.count ∨ CLIENT_RESTART_LIMIT ≤ w2.restart_count then
    (w2, [.sent t2.id t2.count false, .dropped t2.id])
  else
    ({ w2 with tasks := w2.tasks ++ [t2] }, [])

/-- `DownloadPoolWorker::handle_success` from services/downloader/pool.rs. -/
def Worker.handle_success (w : Worker) (t : DownloadTask) : Worker × List PoolEvent :=
  ({ w with
      count := 0
      restart_count := 0
      successes_since_restart := w.successes_since_restart + 1 },
   [.sent t.id t.count true, .dropped t.id])

/-- `DownloadPoolWorker::handle_response` / `handle_response_ok` from
services/downloader/pool.rs, with the attempt outcome abstracted. -/
def Worker.handle_response (w : Worker) (t : DownloadTask) (res : AttemptOutcome) :
    Worker × List PoolEvent :=
  match res with
  | .success => w.handle_success t
  | .reqError => w.increment_failure_and_maybe_retry t
  | .ioError => (w, [.sent t.id t.count false, .dropped t.id])

/-- `DownloadPoolWorker::handle_task` from services/downloader/pool.rs lines
193-223: cancelled tasks are discarded silently; otherwise the response is
handled and, when the consecutive-failure count has reached the threshold, the
worker updates its restart counter, sleeps the fixed backoff, rebuilds the
client (keeping the old one when the rebuild fails, outcome `rebuildOk`), and
unconditionally clears the consecutive-failure count. -/
def Worker.handle_task (w : Worker) (t : DownloadTask) (res : AttemptOutcome)
    (rebuildOk : Bool) (freshClient : Nat) : Worker × List PoolEvent :=
  if t.cancelFlag then (w, [.dropped t.id])
  else
    let wr := w.handle_response t res
    if CLIENT_RESTART_FAILURE_THRESHOLD ≤ wr.1.count then
      ({ wr.1 with
          restart_count :=
            if wr.1.successes_since_restart = 0 then wr.1.restart_count + 1 else 0
          successes_since_restart := 0
          client := if rebuildOk then freshClient else wr.1.client
          count := 0 },
        wr.2 ++ [.slept CLIENT_RESTART_BACKOFF_SECS, .rebuilt rebuildOk])
    else wr

/-- The worker main loop `DownloadPoolWorker::run` from
services/downloader/pool.rs, draining the local queue (no new submissions, pool
cancel flag unset): pop the oldest task, handle it, repeat. `oracle id count`
gives the network outcome of a task's attempt, `rebuild` the outcome of a
client rebuild. `fuel` bounds the number of iterations. -/
def Worker.runDrain (oracle : Nat → Nat → AttemptOutcome) (rebuild : Nat → Bool) :
    Nat → Worker → Worker × List PoolEvent
  | 0, w => (w, [])
  | fuel + 1, w =>
    match w.tasks with
    | [] => (w, [])
    | t :: rest =>
      let w1 : Worker := { w with tasks := rest }
      let p := w1.handle_task t (oracle t.id t.count) (rebuild w1.client) (w1.client + 1)
      let q := Worker.runDrain oracle rebuild fuel p.1
      (q.1, p.2 ++ q.2)

/-- A freshly submitted task (`new_download_task` / `DownloadTask::new`):
failure count zero, cancel flag unset. -/
def freshTask (id : Nat) : DownloadTask := ⟨0, id, false⟩

/-- Attempt oracle for a job whose every attempt fails with a transport error. -/
def allFail : Nat → Nat → AttemptOutcome := fun _ _ => .reqError

/-- Rebuild oracle: every client rebuild fails (the worker keeps the client). -/
def noRebuild : Nat → Bool := fun _ => false

/-! ### Handles over the pool: services/downloader/pool.rs -/

/-- Observable state of a `DownloadHandle` (services/downloader/pool.rs): the
shared cancel flag, and whatever has been received on the result channel
(`some ok` once a result arrived, `none` otherwise). -/
structure DownloadHandleM where
  cancelFlag : Bool
  received : Option Bool
deriving DecidableEq

/-- `DownloadHandle::is_finished` from services/downloader/pool.rs lines 76-78:
it reads the shared cancel flag. -/
def DownloadHandleM.is_finished (h : DownloadHandleM) : Bool := h.cancelFlag

/-- `DownloadHandle::cancel` from services/downloader/pool.rs lines 72-74. -/
def DownloadHandleM.cancel (h : DownloadHandleM) : DownloadHandleM :=
  { h with cancelFlag := true }

/-- The handle of task `id` after a worker run with trace `evs`, starting from a
fresh handle: the cancel flag is set by `impl Drop for DownloadTask` when the
worker drops the task, and the channel holds the first result sent. -/
def handleAfterRun (evs : List PoolEvent) (id : Nat) : DownloadHandleM :=
  { cancelFlag := evs.any (fun e => e = .dropped id)
    received := evs.findSome? (fun e =>
      match e with
      | .sent i _ ok => if i = id then some ok else none
      | _ => none) }

/-- A `JoinHandle<()>` of one worker thread (std), as observed by
`DownloadPool::is_finished`. -/
structure WorkerThreadHandle where
  finished : Bool
deriving DecidableEq

/-- `DownloadPool` handle state from services/downloader/pool.rs: instance-wide
cancel flag plus the worker `JoinHandle` list. -/
structure DownloadPoolM where
  cancelFlag : Bool
  handles : List WorkerThreadHandle
deriving DecidableEq

/-- `DownloadPool::cancel` from services/downloader/pool.rs lines 387-390:
stores `true` into the pool cancel flag and clears the handle list. -/
def DownloadPoolM.cancel (p : DownloadPoolM) : DownloadPoolM :=
  { p with
    cancelFlag := true
    handles := [] }

/-- `DownloadPool::is_finished` from services/downloader/pool.rs lines 393-395:
`self.handles.iter().any(|handle| handle.is_finished())`. -/
def DownloadPoolM.is_finished (p : DownloadPoolM) : Bool :=
  p.handles.any (fun h => h.finished)

/-- A pool as built by `DownloadPool::new`: `CLIENT_COUNT` running worker
threads, cancel flag unset. -/
def freshPool : DownloadPoolM :=
  { cancelFlag := false
    handles := List.replicate CLIENT_COUNT ⟨false⟩ }

/-! ### Compound (Live2D) download: services/downloader/service.rs -/

/-- Combined outcome of fetching one derived resource and writing it to disk
(the body of the loop in `Live2dDownloadWorker::run`): `ok`, or a failure
carrying the id of the produced `DownloadError`. -/
inductive DerivedOutcome where
  | ok
  | fail (errId : Nat)
deriving DecidableEq

/-- What `Live2dDownloadWorker::run` (services/downloader/service.rs lines
110-169) did: `sent` is the error delivered on the result channel, if any
(the function never sends a success value); `configWritten` whether the model
configuration file was written; `attempted` the indices of derived resources
for which a download was issued. -/
structure Live2dRunResult where
  sent : Option Nat
  configWritten : Bool
  attempted : List Nat
deriving DecidableEq

/-- The derived-resource loop of `Live2dDownloadWorker::run`: before each
resource the cancel flag is checked (observed value `cancelAt i`); a failed
fetch/write hits `unwrap_or_exit!`, which sends that error and returns
immediately. -/
def live2d_run_loop : List DerivedOutcome → Nat → (Nat → Bool) → Option Nat × List Nat
  | [], _, _ => (none, [])
  | d :: ds, i, cancelAt =>
    if cancelAt i then (none, [])
    else
      match d with
      | .fail e => (some e, [i])
      | .ok =>
        let p := live2d_run_loop ds (i + 1) cancelAt
        (p.1, i :: p.2)

/-- `Live2dDownloadWorker::run` from services/downloader/service.rs lines
110-169. `manifest = some e` means the manifest fetch, its parse, or the
configuration-file write failed with error `e` (all three feed the same
`unwrap_or_exit!`); `none` means that step succeeded and the configuration
file was written. -/
def live2d_run (manifest : Option Nat) (derived : List DerivedOutcome)
    (cancelAt : Nat → Bool) : Live2dRunResult :=
  match manifest with
  | some e =>
    { sent := some e
      configWritten := false
      attempted := [] }
  | none =>
    let p := live2d_run_loop derived 0 cancelAt
    { sent := p.1
      configWritten := true
      attempted := p.2 }

/-- `Live2dDownloadHandle::join` from services/downloader/service.rs lines
208-211: it joins the coordination thread, discards the receiver, and returns
`Ok(())` - the worker's outcome is never reported. -/
def live2d_join (_res : Live2dRunResult) : Option Nat := none

/-! ### Download pipeline: services/pipeline/download.rs and traits/pipeline.rs -/

/-- Modelled from the spec: the `DownloadState` snapshot whose `success` and
`failed` fields the check closure of `DownloadPipeline::run`
(services/pipeline/download.rs lines 110-111) increments is missing from the
sources (traits/pipeline.rs declares the exposed snapshot as
`\x7b done, total \x7d`); per the spec's `state() -> \x7bdone, total\x7d`, `done` counts
completed downloads, i.e. successes plus failures. -/
structure PDownloadState where
  success : Nat
  failed : Nat
  total : Nat
deriving DecidableEq

/-- The `done` counter exposed by `state()` (`DownloadState` of
traits/pipeline.rs lines 21-26): completed downloads. -/
def PDownloadState.done (s : PDownloadState) : Nat := s.success + s.failed

/-- State of `DownloadPipeline::run`: the shared snapshot plus the remaining
job handles (identified by index). -/
structure PipelineRunState where
  state : PDownloadState
  handles : List Nat
deriving DecidableEq

/-- One round of the check closure of `DownloadPipeline::run`
(services/pipeline/download.rs lines 81-114): the finished handles are removed
from the list and joined; `oracle h = some ok` means handle `h` is finished
with outcome `ok`, `none` that it is still running. Successes and failures are
added to the shared state. -/
def checkRound (oracle : Nat → Option Bool) (s : PipelineRunState) : PipelineRunState :=
  { state :=
      { s.state with
        success := s.state.success + s.handles.countP (fun h => oracle h = some true)
        failed := s.state.failed + s.handles.countP (fun h => oracle h = some false) }
    handles := s.handles.filter (fun h => (oracle h).isNone) }

/-- Iterated polling rounds of the monitor loop of `DownloadPipeline::run`. -/
def runRounds : List (Nat → Option Bool) → PipelineRunState → PipelineRunState
  | [], s => s
  | o :: os, s => runRounds os (checkRound o s)

/-- `DownloadPipeline::new` + the start of `run`
(services/pipeline/download.rs lines 46-56 and 75-78): `total` is the number
of resources, one handle per resource, counters zero. -/
def initPipeline (n : Nat) : PipelineRunState :=
  { state :=
      { success := 0
        failed := 0
        total := n }
    handles := List.range n }

/-! ### Cancel flags: every store site in the bd2wg crate -/

/-- Every program point of the bd2wg services that stores into a cancel flag:
`DownloadHandle::cancel` (pool.rs line 73), `impl Drop for DownloadTask`
(pool.rs line 131), `DownloadPool::cancel` (pool.rs line 388),
`impl Drop for Live2dDownloadWorker` (service.rs line 176),
`Live2dDownloadHandle::cancel` (service.rs line 214), the end of
`DownloadPipeline::run` (download.rs line 124), `DownloadPipeline::cancel`
(download.rs line 143), the end of `TranspilePipeline::run` (transpile.rs line
119) and `TranspilePipeline::cancel` (transpile.rs line 142). -/
inductive CancelWriteSite where
  | downloadHandleCancel
  | downloadTaskDrop
  | downloadPoolCancel
  | live2dWorkerDrop
  | live2dHandleCancel
  | downloadPipelineRunEnd
  | downloadPipelineCancel
  | transpilePipelineRunEnd
  | transpilePipelineCancel
deriving DecidableEq

/-- The value each site stores: each of the nine `store` calls in the sources
stores the literal `true`. -/
def storedValue : CancelWriteSite → Bool
  | .downloadHandleCancel => true
  | .downloadTaskDrop => true
  | .downloadPoolCancel => true
  | .live2dWorkerDrop => true
  | .live2dHandleCancel => true
  | .downloadPipelineRunEnd => true
  | .downloadPipelineCancel => true
  | .transpilePipelineRunEnd => true
  | .transpilePipelineCancel => true

/-- Effect of one store site on a cancel flag (an atomic store overwrites). -/
def applyCancelWrite (s : CancelWriteSite) (_flag : Bool) : Bool := storedValue s

/-- Effect of a sequence of cancel-flag writes. -/
def applyCancelWrites (sites : List CancelWriteSite) (flag : Bool) : Bool :=
  sites.foldl (fun acc s => applyCancelWrite s acc) flag

/-! ### Worker lemmas -/

/-- Total failure budget left in a worker queue. -/
def Worker.budget (w : Worker) : Nat :=
  (w.tasks.map (fun t => TASK_MAX_RETRIES - t.count)).sum

theorem Worker.handle_task_tasks (v : Worker) (t : DownloadTask)
    (res : AttemptOutcome) (rb : Bool) (fc : Nat) :
    (v.handle_task t res rb fc).1.tasks = v.tasks ∨
      ((v.handle_task t res rb fc).1.tasks = v.tasks ++ [{ t with count := t.count + 1 }] ∧
        t.count + 1 < TASK_MAX_RETRIES) := by
  by_cases hcf : t.cancelFlag = true
  · left
    simp [Worker.handle_task, hcf]
  · cases res with
    | success =>
      left
      simp [Worker.handle_task, Worker.handle_response, Worker.handle_success, hcf,
        CLIENT_RESTART_FAILURE_THRESHOLD]
    | reqError =>
      by_cases hfin :
          TASK_MAX_RETRIES ≤ t.count + 1 ∨ CLIENT_RESTART_LIMIT ≤ v.restart_count
      · left
        by_cases hth : CLIENT_RESTART_FAILURE_THRESHOLD ≤ v.count + 1 <;>
          simp [Worker.handle_task, Worker.handle_response,
            Worker.increment_failure_and_maybe_retry, hcf, hfin, hth]
      · right
        constructor
        · by_cases hth : CLIENT_RESTART_FAILURE_THRESHOLD ≤ v.count + 1 <;>
            simp [Worker.handle_task, Worker.handle_response,
              Worker.increment_failure_and_maybe_retry, hcf, hfin, hth]
        · push_neg at hfin
          omega
    | ioError =>
      left
      by_cases hth : CLIENT_RESTART_FAILURE_THRESHOLD ≤ v.count <;>
        simp [Worker.handle_task, Worker.handle_response, hcf, hth]

theorem Worker.handle_task_sent (v : Worker) (t : DownloadTask)
    (res : AttemptOutcome) (rb : Bool) (fc : Nat) (ht : t.count < TASK_MAX_RETRIES) :
    ∀ id n ok, PoolEvent.sent id n ok ∈ (v.handle_task t res rb fc).2 →
      n ≤ TASK_MAX_RETRIES := by
  intro id n ok hmem
  by_cases hcf : t.cancelFlag = true
  · simp [Worker.handle_task, hcf] at hmem
  · cases res with
    | success =>
      simp [Worker.handle_task, Worker.handle_response, Worker.handle_success, hcf,
        CLIENT_RESTART_FAILURE_THRESHOLD] at hmem
      omega
    | reqError =>
      by_cases hfin :
          TASK_MAX_RETRIES ≤ t.count + 1 ∨ CLIENT_RESTART_LIMIT ≤ v.restart_count
      · by_cases hth : CLIENT_RESTART_FAILURE_THRESHOLD ≤ v.count + 1 <;>
          simp [Worker.handle_task, Worker.handle_response,
            Worker.increment_failure_and_maybe_retry, hcf, hfin, hth] at hmem <;>
          omega
      · by_cases hth : CLIENT_RESTART_FAILURE_THRESHOLD ≤ v.count + 1 <;>
          simp [Worker.handle_task, Worker.handle_response,
            Worker.increment_failure_and_maybe_retry, hcf, hfin, hth] at hmem
    | ioError =>
      by_cases hth : CLIENT_RESTART_FAILURE_THRESHOLD ≤ v.count <;>
        simp [Worker.handle_task, Worker.handle_response, hcf, hth] at hmem <;>
        omega

theorem Worker.handle_task_sent_dropped (v : Worker) (t : DownloadTask)
    (res : AttemptOutcome) (rb : Bool) (fc : Nat) :
    ∀ id n ok, PoolEvent.sent id n ok ∈ (v.handle_task t res rb fc).2 →
      PoolEvent.dropped id ∈ (v.handle_task t res rb fc).2 := by
  intro id n ok hmem
  by_cases hcf : t.cancelFlag = true
  · simp [Worker.handle_task, hcf] at hmem
  · cases res with
    | success =>
      simp [Worker.handle_task, Worker.handle_response, Worker.handle_success, hcf,
        CLIENT_RESTART_FAILURE_THRESHOLD] at hmem ⊢
      exact hmem.1
    | reqError =>
      by_cases hfin :
          TASK_MAX_RETRIES ≤ t.count + 1 ∨ CLIENT_RESTART_LIMIT ≤ v.restart_count
      · by_cases hth : CLIENT_RESTART_FAILURE_THRESHOLD ≤ v.count + 1 <;>
          simp [Worker.handle_task, Worker.handle_response,
            Worker.increment_failure_and_maybe_retry, hcf, hfin, hth] at hmem ⊢
        · exact hmem.1
        · exact hmem.1
      · by_cases hth : CLIENT_RESTART_FAILURE_THRESHOLD ≤ v.count + 1 <;>
          simp [Worker.handle_task, Worker.handle_response,
            Worker.increment_failure_and_maybe_retry, hcf, hfin, hth] at hmem
    | ioError =>
      by_cases hth : CLIENT_RESTART_FAILURE_THRESHOLD ≤ v.count <;>
        simp [Worker.handle_task, Worker.handle_response, hcf, hth] at hmem ⊢
      · exact hmem.1
      · exact hmem.1

theorem Worker.runDrain_zero (oracle : Nat → Nat → AttemptOutcome)
    (rebuild : Nat → Bool) (w : Worker) :
    Worker.runDrain oracle rebuild 0 w = (w, []) := rfl

theorem Worker.runDrain_succ_nil (oracle : Nat → Nat → AttemptOutcome)
    (rebuild : Nat → Bool) (fuel : Nat) (w : Worker) (h : w.tasks = []) :
    Worker.runDrain oracle rebuild (fuel + 1) w = (w, []) := by
  conv_lhs => rw [Worker.runDrain, h]

theorem Worker.runDrain_succ_cons (oracle : Nat → Nat → AttemptOutcome)
    (rebuild : Nat → Bool) (fuel : Nat) (w : Worker) (t : DownloadTask)
    (rest : List DownloadTask) (h : w.tasks = t :: rest) :
    Worker.runDrain oracle rebuild (fuel + 1) w =
      ((Worker.runDrain oracle rebuild fuel
          (Worker.handle_task { w with tasks := rest } t (oracle t.id t.count)
            (rebuild w.client) (w.client + 1)).1).1,
        (Worker.handle_task { w with tasks := rest } t (oracle t.id t.count)
          (rebuild w.client) (w.client + 1)).2 ++
        (Worker.runDrain oracle rebuild fuel
          (Worker.handle_task { w with tasks := rest } t (oracle t.id t.count)
            (rebuild w.client) (w.client + 1)).1).2) := by
  conv_lhs => rw [Worker.runDrain, h]

theorem Worker.runDrain_sent_le (oracle : Nat → Nat → AttemptOutcome)
    (rebuild : Nat → Bool) :
    ∀ (fuel : Nat) (w : Worker),
      (∀ t ∈ w.tasks, t.count < TASK_MAX_RETRIES) →
      ∀ id n ok, PoolEvent.sent id n ok ∈ (Worker.runDrain oracle rebuild fuel w).2 →
        n ≤ TASK_MAX_RETRIES := by
  intro fuel
  induction fuel with
  | zero =>
    intro w _ id n ok hmem
    simp [Worker.runDrain_zero] at hmem
  | succ fuel ih =>
    intro w hw id n ok hmem
    cases htasks : w.tasks with
    | nil =>
      rw [Worker.runDrain_succ_nil oracle rebuild fuel w htasks] at hmem
      simp at hmem
    | cons t rest =>
      rw [Worker.runDrain_succ_cons oracle rebuild fuel w t rest htasks] at hmem
      simp only [List.mem_append] at hmem
      have hts : ∀ t2 ∈ rest, t2.count < TASK_MAX_RETRIES := by
        intro t2 h2
        exact hw t2 (htasks ▸ List.mem_cons_of_mem t h2)
      have htc : t.count < TASK_MAX_RETRIES :=
        hw t (htasks ▸ List.mem_cons_self t rest)
      rcases hmem with hmem | hmem
      · exact Worker.handle_task_sent _ t _ _ _ htc id n ok hmem
      · have hnext : ∀ t2 ∈ (Worker.handle_task { w with tasks := rest } t
            (oracle t.id t.count) (rebuild w.client) (w.client + 1)).1.tasks,
            t2.count < TASK_MAX_RETRIES := by
          rcases Worker.handle_task_tasks { w with tasks := rest } t
              (oracle t.id t.count) (rebuild w.client) (w.client + 1) with heq | ⟨heq, hlt⟩
          · rw [heq]; exact hts
          · rw [heq]
            intro t2 h2
            rcases List.mem_append.mp h2 with h2 | h2
            · exact hts t2 h2
            · simp at h2
              rw [h2]
              exact hlt
        exact ih _ hnext id n ok hmem

theorem Worker.runDrain_sent_dropped (oracle : Nat → Nat → AttemptOutcome)
    (rebuild : Nat → Bool) :
    ∀ (fuel : Nat) (w : Worker),
      ∀ id n ok, PoolEvent.sent id n ok ∈ (Worker.runDrain oracle rebuild fuel w).2 →
        PoolEvent.dropped id ∈ (Worker.runDrain oracle rebuild fuel w).2 := by
  intro fuel
  induction fuel with
  | zero =>
    intro w id n ok hmem
    simp [Worker.runDrain_zero] at hmem
  | succ fuel ih =>
    intro w id n ok hmem
    cases htasks : w.tasks with
    | nil =>
      rw [Worker.runDrain_succ_nil oracle rebuild fuel w htasks] at hmem
      simp at hmem
    | cons t rest =>
      rw [Worker.runDrain_succ_cons oracle rebuild fuel w t rest htasks] at hmem ⊢
      simp only [List.mem_append] at hmem ⊢
      rcases hmem with hmem | hmem
      · exact Or.inl (Worker.handle_task_sent_dropped _ t _ _ _ id n ok hmem)
      · exact Or.inr (ih _ id n ok hmem)

theorem Worker.handle_task_budget (v : Worker) (t : DownloadTask)
    (res : AttemptOutcome) (rb : Bool) (fc : Nat) :
    ((v.handle_task t res rb fc).1.tasks.map
        (fun t2 => TASK_MAX_RETRIES - t2.count)).sum ≤
      (v.tasks.map (fun t2 => TASK_MAX_RETRIES - t2.count)).sum +
        (TASK_MAX_RETRIES - (t.count + 1)) := by
  rcases Worker.handle_task_tasks v t res rb fc with heq | ⟨heq, _⟩
  · rw [heq]; omega
  · rw [heq]; simp

theorem Worker.runDrain_drains (oracle : Nat → Nat → AttemptOutcome)
    (rebuild : Nat → Bool) :
    ∀ (fuel : Nat) (w : Worker), w.budget ≤ fuel →
      (∀ t ∈ w.tasks, t.count < TASK_MAX_RETRIES) →
      (Worker.runDrain oracle rebuild fuel w).1.tasks = [] := by
  intro fuel
  induction fuel with
  | zero =>
    intro w hbudget hcounts
    cases htasks : w.tasks with
    | nil => rw [Worker.runDrain_zero]; exact htasks
    | cons t rest =>
      exfalso
      have h1 := hcounts t (htasks ▸ List.mem_cons_self t rest)
      have h2 : 1 ≤ TASK_MAX_RETRIES - t.count := by omega
      have hb : w.budget = (TASK_MAX_RETRIES - t.count) +
          (rest.map (fun t2 => TASK_MAX_RETRIES - t2.count)).sum := by
        unfold Worker.budget
        rw [htasks]
        simp
      omega
  | succ fuel ih =>
    intro w hbudget hcounts
    cases htasks : w.tasks with
    | nil =>
      rw [Worker.runDrain_succ_nil oracle rebuild fuel w htasks]
      exact htasks
    | cons t rest =>
      rw [Worker.runDrain_succ_cons oracle rebuild fuel w t rest htasks]
      have htc : t.count < TASK_MAX_RETRIES :=
        hcounts t (htasks ▸ List.mem_cons_self t rest)
      have hts : ∀ t2 ∈ rest, t2.count < TASK_MAX_RETRIES := by
        intro t2 h2
        exact hcounts t2 (htasks ▸ List.mem_cons_of_mem t h2)
      have hb : w.budget = (TASK_MAX_RETRIES - t.count) +
          (rest.map (fun t2 => TASK_MAX_RETRIES - t2.count)).sum := by
        unfold Worker.budget
        rw [htasks]
        simp
      have hstep := Worker.handle_task_budget { w with tasks := rest } t
        (oracle t.id t.count) (rebuild w.client) (w.client + 1)
      have hnextcounts : ∀ t2 ∈ (Worker.handle_task { w with tasks := rest } t
          (oracle t.id t.count) (rebuild w.client) (w.client + 1)).1.tasks,
          t2.count < TASK_MAX_RETRIES := by
        rcases Worker.handle_task_tasks { w with tasks := rest } t
            (oracle t.id t.count) (rebuild w.client) (w.client + 1) with heq | ⟨heq, hlt⟩
        · rw [heq]; exact hts
        · rw [heq]
          intro t2 h2
          rcases List.mem_append.mp h2 with h2 | h2
          · exact hts t2 h2
          · simp at h2
            rw [h2]
            exact hlt
      apply ih _ _ hnextcounts
      unfold Worker.budget at hstep ⊢
      simp only [] at hstep
      omega

/-! ### Pipeline lemmas -/

theorem countP_pipeline_partition (o : Nat → Option Bool) :
    ∀ l : List Nat,
      l.countP (fun h => o h = some true) + l.countP (fun h => o h = some false) +
        (l.filter (fun h => (o h).isNone)).length = l.length := by
  intro l
  induction l with
  | nil => simp
  | cons h l ih =>
    cases hoh : o h with
    | none => simp [List.countP_cons, List.filter_cons, hoh]; omega
    | some b =>
      cases b <;> simp [List.countP_cons, List.filter_cons, hoh] <;> omega

theorem checkRound_state (o : Nat → Option Bool) (s : PipelineRunState) :
    (checkRound o s).state.total = s.state.total ∧
      (checkRound o s).state.done =
        s.state.done + (s.handles.countP (fun h => o h = some true) +
          s.handles.countP (fun h => o h = some false)) ∧
      (checkRound o s).handles.length +
          (s.handles.countP (fun h => o h = some true) +
            s.handles.countP (fun h => o h = some false)) = s.handles.length := by
  refine ⟨rfl, ?_, ?_⟩
  · simp [checkRound, PDownloadState.done]
    omega
  · have := countP_pipeline_partition o s.handles
    simp only [checkRound]
    omega

theorem runRounds_total (os : List (Nat → Option Bool)) :
    ∀ s : PipelineRunState, (runRounds os s).state.total = s.state.total := by
  induction os with
  | nil => intro s; rfl
  | cons o os ih =>
    intro s
    rw [runRounds, ih]
    exact (checkRound_state o s).1

theorem runRounds_done_mono (os : List (Nat → Option Bool)) :
    ∀ s : PipelineRunState, s.state.done ≤ (runRounds os s).state.done := by
  induction os with
  | nil => intro s; exact Nat.le_refl _
  | cons o os ih =>
    intro s
    rw [runRounds]
    have h1 := (checkRound_state o s).2.1
    have h2 := ih (checkRound o s)
    omega

theorem runRounds_done_bound (os : List (Nat → Option Bool)) :
    ∀ s : PipelineRunState,
      s.state.done + s.handles.length = s.state.total →
      (runRounds os s).state.done + (runRounds os s).handles.length =
        (runRounds os s).state.total := by
  induction os with
  | nil => intro s h; exact h
  | cons o os ih =>
    intro s h
    rw [runRounds]
    apply ih
    obtain ⟨h1, h2, h3⟩ := checkRound_state o s
    omega

theorem runRounds_append (os1 os2 : List (Nat → Option Bool)) :
    ∀ s : PipelineRunState, runRounds (os1 ++ os2) s = runRounds os2 (runRounds os1 s) := by
  induction os1 with
  | nil => intro s; rfl
  | cons o os ih =>
    intro s
    rw [List.cons_append, runRounds, runRounds, ih]

theorem Worker.increment_client (w : Worker) (t : DownloadTask) :
    (w.increment_failure_and_maybe_retry t).1.client = w.client := by
  by_cases h : TASK_MAX_RETRIES ≤ t.count + 1 ∨ CLIENT_RESTART_LIMIT ≤ w.restart_count <;>
    simp [Worker.increment_failure_and_maybe_retry, h]

theorem Worker.handle_response_client (w : Worker) (t : DownloadTask)
    (res : AttemptOutcome) : (w.handle_response t res).1.client = w.client := by
  cases res with
  | success => rfl
  | reqError => exact Worker.increment_client w t
  | ioError => rfl

/-! ### Concrete runs used by the corrected and code-bug claims -/

/-- Sixteen freshly submitted tasks (ids 1..16) queued on one worker. -/
def cexWorker : Worker :=
  ⟨0, 0, 0, 0, (List.range 16).map (fun i => freshTask (i + 1))⟩

/-- The results delivered to the channel of task `id` during a run. -/
def sentEvents (evs : List PoolEvent) (id : Nat) : List PoolEvent :=
  evs.filter (fun e =>
    match e with
    | .sent i _ _ => decide (i = id)
    | _ => false)

/-! ### Claims -/

/-- C1 counterexample: for the key of a descriptor that cannot be resolved
(`bestdori::Resource { kind: Common, path: Url }` as an image), a sequence of
two `resolve_normal` calls on one fresh resolver produces two errors and zero
vacant outcomes - not "exactly one vacant", as the claim states for any
sequence of resolve calls with one key. -/
theorem claim_C1_counterexample :
    Resolver.new.outcomesFor
        [.normal ⟨.Common, .Url "u"⟩ .Image, .normal ⟨.Common, .Url "u"⟩ .Image]
        (.Normal ⟨.Common, .Url "u"⟩ .Image) =
      [.failed ⟨.Image, ⟨.Common, .Url "u"⟩⟩, .failed ⟨.Image, ⟨.Common, .Url "u"⟩⟩] ∧
    (Resolver.new.outcomesFor
        [.normal ⟨.Common, .Url "u"⟩ .Image, .normal ⟨.Common, .Url "u"⟩ .Image]
        (.Normal ⟨.Common, .Url "u"⟩ .Image)).countP CallOutcome.isVacantEntry = 0 :=
  ⟨rfl, rfl⟩

/-- C1 (amended): for any sequence of resolve calls on one resolver instance
with the same `(descriptor, category)` key, at most one call observes a vacant
outcome (a key that never resolves yields errors and no vacant outcome at
all), and any two calls that observe an entry - vacant or occupied - reference
the same canonical resource, with the same `url` and the same relative path. -/
theorem claim_C1_dedup :
    ∀ (cs : List ResolveCall) (k : ResourceKey),
      (Resolver.new.outcomesFor cs k).countP CallOutcome.isVacantEntry ≤ 1 ∧
      (∀ o1, o1 ∈ Resolver.new.outcomesFor cs k →
        ∀ o2, o2 ∈ Resolver.new.outcomesFor cs k →
        ∀ e1 e2, o1 = .entry e1 → o2 = .entry e2 →
          e1.resource = e2.resource ∧ e1.resource.url = e2.resource.url ∧
            e1.resource.relative_path = e2.resource.relative_path) := by
  intro cs k
  refine ⟨Resolver.outcomesFor_vacant_le_one cs Resolver.new k Resolver.inv_new, ?_⟩
  intro o1 h1 o2 h2 e1 e2 he1 he2
  have hc1 := Resolver.outcomesFor_entries cs Resolver.new k Resolver.inv_new o1 h1 e1 he1
  have hc2 := Resolver.outcomesFor_entries cs Resolver.new k Resolver.inv_new o2 h2 e2 he2
  rw [hc1] at hc2
  have heq : e1.resource = e2.resource := Option.some.inj hc2
  exact ⟨heq, by rw [heq], by rw [heq]⟩

theorem claim_C1_dedup_witness :
    (Resolver.new.outcomesFor [.model "a", .model "a"]
        (.Model "a")).countP CallOutcome.isVacantEntry ≤ 1 ∧
      ((ResourceEntry.Vacant (model_resource "a")).resource =
          (ResourceEntry.Occupied (model_resource "a")).resource ∧
        (ResourceEntry.Vacant (model_resource "a")).resource.url =
          (ResourceEntry.Occupied (model_resource "a")).resource.url ∧
        (ResourceEntry.Vacant (model_resource "a")).resource.relative_path =
          (ResourceEntry.Occupied (model_resource "a")).resource.relative_path) :=
  ⟨(claim_C1_dedup [.model "a", .model "a"] (.Model "a")).1,
    (claim_C1_dedup [.model "a", .model "a"] (.Model "a")).2
      (.entry (.Vacant (model_resource "a"))) (by decide)
      (.entry (.Occupied (model_resource "a"))) (by decide)
      (.Vacant (model_resource "a")) (.Occupied (model_resource "a")) rfl rfl⟩

/-- C2 counterexample: sixteen failing jobs on one worker. Jobs 1-5, 6-10 and
11-15 drive three client restarts with no intervening success, so when job 16
first fails the worker's consecutive-restart count has reached
`CLIENT_RESTART_LIMIT` and `increment_failure_and_maybe_retry` delivers job
16's final error after a single attempt - not after `TASK_MAX_RETRIES = 3`
attempts as the claim states for every job whose attempts all fail. -/
theorem claim_C2_counterexample :
    TASK_MAX_RETRIES = 3 ∧
      sentEvents (Worker.runDrain allFail noRebuild 100 cexWorker).2 16 =
        [.sent 16 1 false] :=
  ⟨rfl, by decide⟩

/-- C2 (amended): a job whose every attempt fails never stays pending - the
worker drains its queue within its failure budget and every delivered result
carries at most `TASK_MAX_RETRIES` attempts; a single fresh failing job (a
worker whose consecutive-restart count never reaches `CLIENT_RESTART_LIMIT`)
is retried exactly `TASK_MAX_RETRIES` times and then receives the final
error. -/
theorem claim_C2_retry_bound :
    (∀ (rebuild : Nat → Bool) (id client : Nat),
        (Worker.runDrain allFail rebuild TASK_MAX_RETRIES
            ⟨0, 0, 0, client, [freshTask id]⟩).2 =
          [.sent id TASK_MAX_RETRIES false, .dropped id]) ∧
    (∀ (oracle : Nat → Nat → AttemptOutcome) (rebuild : Nat → Bool)
        (fuel : Nat) (w : Worker),
        (∀ t ∈ w.tasks, t.count < TASK_MAX_RETRIES) →
        ∀ id n ok, PoolEvent.sent id n ok ∈ (Worker.runDrain oracle rebuild fuel w).2 →
          n ≤ TASK_MAX_RETRIES) ∧
    (∀ (oracle : Nat → Nat → AttemptOutcome) (rebuild : Nat → Bool)
        (fuel : Nat) (w : Worker),
        w.budget ≤ fuel → (∀ t ∈ w.tasks, t.count < TASK_MAX_RETRIES) →
        (Worker.runDrain oracle rebuild fuel w).1.tasks = []) :=
  ⟨fun _ _ _ => rfl,
    fun oracle rebuild => Worker.runDrain_sent_le oracle rebuild,
    fun oracle rebuild => Worker.runDrain_drains oracle rebuild⟩

theorem claim_C2_retry_bound_witness :
    (Worker.runDrain allFail noRebuild TASK_MAX_RETRIES
        ⟨0, 0, 0, 0, [freshTask 7]⟩).2 =
      [.sent 7 TASK_MAX_RETRIES false, .dropped 7] ∧
    (3 : Nat) ≤ TASK_MAX_RETRIES ∧
    (Worker.runDrain allFail noRebuild 3 ⟨0, 0, 0, 0, [freshTask 7]⟩).1.tasks = [] :=
  ⟨claim_C2_retry_bound.1 noRebuild 7 0,
    claim_C2_retry_bound.2.1 allFail noRebuild 3 ⟨0, 0, 0, 0, [freshTask 7]⟩
      (by decide) 7 3 false (by decide),
    claim_C2_retry_bound.2.2 allFail noRebuild 3 ⟨0, 0, 0, 0, [freshTask 7]⟩
      (by decide) (by decide)⟩

/-- C3 (code bug evaluation): a figure fetch whose manifest step succeeds and
whose third and fourth derived resources fail: `Live2dDownloadWorker::run`
delivers only the first failure (error 31), never attempts the fourth
resource, and `Live2dDownloadHandle::join` discards even that error and
reports no failure at all - the full failure list [31, 32] is never
collected. -/
theorem claim_C3_first_error_only :
    (live2d_run none [.ok, .ok, .fail 31, .fail 32] (fun _ => false)).sent = some 31 ∧
    (live2d_run none [.ok, .ok, .fail 31, .fail 32] (fun _ => false)).attempted = [0, 1, 2] ∧
    (live2d_run none [.ok, .ok, .fail 31, .fail 32] (fun _ => false)).configWritten = true ∧
    live2d_join (live2d_run none [.ok, .ok, .fail 31, .fail 32] (fun _ => false)) = none :=
  ⟨rfl, rfl, rfl, rfl⟩

/-- C4: over the lifetime of one `DownloadPipeline` run (any number of polling
rounds over a batch of `n` resources), the `done` count of the shared state is
non-decreasing and never exceeds `total`, which stays `n`. -/
theorem claim_C4_progress_monotone :
    ∀ (oracles : List (Nat → Option Bool)) (n : Nat),
      (runRounds oracles (initPipeline n)).state.total = n ∧
      (runRounds oracles (initPipeline n)).state.done ≤
        (runRounds oracles (initPipeline n)).state.total ∧
      ∀ more, (runRounds oracles (initPipeline n)).state.done ≤
        (runRounds (oracles ++ more) (initPipeline n)).state.done := by
  intro oracles n
  have htot : (runRounds oracles (initPipeline n)).state.total = n :=
    runRounds_total oracles (initPipeline n)
  have hinv := runRounds_done_bound oracles (initPipeline n)
    (by simp [initPipeline, PDownloadState.done])
  refine ⟨htot, by omega, ?_⟩
  intro more
  rw [runRounds_append]
  exact runRounds_done_mono more _

/-- C5 (code bug evaluation): on a freshly started pool (`CLIENT_COUNT` running
worker threads), `DownloadPool::cancel` stores `true` into the cancel flag but
also clears the worker-handle list, after which
`DownloadPool::is_finished` - `handles.iter().any(..)` over the now-empty
list - returns `false`, not `true` as the claim requires for every handle type
after `cancel()`. -/
theorem claim_C5_pool_not_finished_after_cancel :
    freshPool.cancel.cancelFlag = true ∧ freshPool.cancel.is_finished = false :=
  ⟨rfl, rfl⟩

/-- C6: whenever the consecutive-failure count reaches
`CLIENT_RESTART_FAILURE_THRESHOLD` after handling a (non-cancelled) task's
response, the worker sleeps the fixed `CLIENT_RESTART_BACKOFF`, attempts one
client rebuild, keeps the old client if the rebuild failed (and only installs
the fresh client if it succeeded), and resets the consecutive-failure counter
to zero regardless of the rebuild outcome. -/
theorem claim_C6_client_restart :
    ∀ (w : Worker) (t : DownloadTask) (res : AttemptOutcome) (rb : Bool) (fc : Nat),
      t.cancelFlag = false →
      CLIENT_RESTART_FAILURE_THRESHOLD ≤ (w.handle_response t res).1.count →
      PoolEvent.slept CLIENT_RESTART_BACKOFF_SECS ∈ (w.handle_task t res rb fc).2 ∧
      PoolEvent.rebuilt rb ∈ (w.handle_task t res rb fc).2 ∧
      (w.handle_task t res rb fc).1.count = 0 ∧
      (rb = false → (w.handle_task t res rb fc).1.client = w.client) ∧
      (rb = true → (w.handle_task t res rb fc).1.client = fc) := by
  intro w t res rb fc hcf hth
  have hclient := Worker.handle_response_client w t res
  refine ⟨?_, ?_, ?_, ?_, ?_⟩
  · simp [Worker.handle_task, hcf, hth]
  · simp [Worker.handle_task, hcf, hth]
  · simp [Worker.handle_task, hcf, hth]
  · intro hrb
    simp [Worker.handle_task, hcf, hth, hrb, hclient]
  · intro hrb
    simp [Worker.handle_task, hcf, hth, hrb]

theorem claim_C6_client_restart_witness :
    PoolEvent.slept CLIENT_RESTART_BACKOFF_SECS ∈
      ((⟨4, 0, 0, 0, []⟩ : Worker).handle_task (freshTask 9) .reqError false 1).2 ∧
    PoolEvent.rebuilt false ∈
      ((⟨4, 0, 0, 0, []⟩ : Worker).handle_task (freshTask 9) .reqError false 1).2 ∧
    ((⟨4, 0, 0, 0, []⟩ : Worker).handle_task (freshTask 9) .reqError false 1).1.count = 0 ∧
    (false = false →
      ((⟨4, 0, 0, 0, []⟩ : Worker).handle_task (freshTask 9) .reqError false 1).1.client =
        (⟨4, 0, 0, 0, []⟩ : Worker).client) ∧
    (false = true →
      ((⟨4, 0, 0, 0, []⟩ : Worker).handle_task (freshTask 9) .reqError false 1).1.client = 1) :=
  claim_C6_client_restart ⟨4, 0, 0, 0, []⟩ (freshTask 9) .reqError false 1
    rfl (by decide)

/-- C7: `resolve_model` never fails - its internal `get_or_insert` call always
returns `Ok` (so the source's `.unwrap()` cannot panic) - and for every costume
name the entry references the deterministic figure resource whose url is the
model base url, the costume name, `"_rip/"` and the fixed manifest file name,
and whose path is the costume name followed by `"/"`; a second call with the
same name references the same resource. -/
theorem claim_C7_resolve_model :
    ∀ (r : Resolver) (costume : String), r.Inv →
      (r.get_or_insert (.Model costume) (fun _ => .ok (model_resource costume))).1 =
        .ok (r.resolve_model costume).1 ∧
      (r.resolve_model costume).1.resource =
        ⟨.Figure,
          BESTDORI_ASSET_URL_MODEL ++ costume ++ "_rip/" ++ BESTDORI_ASSET_URL_MODEL_BUILDER,
          costume ++ "/"⟩ ∧
      ((r.resolve_model costume).2.resolve_model costume).1.resource =
        (r.resolve_model costume).1.resource := by
  intro r costume hr
  have h1 : (r.get_or_insert (.Model costume) (fun _ => .ok (model_resource costume))).1 =
      .ok (r.resolve_model costume).1 := by
    rw [Resolver.get_or_insert_ok_eq]
    rfl
  refine ⟨h1, ?_, ?_⟩
  · cases hcase : r.lookup (.Model costume) with
    | some w =>
      have hcan := Resolver.lookup_canonical hr hcase
      have hw : w = model_resource costume := (Option.some.inj hcan).symm
      simp [Resolver.resolve_model, Resolver.get_or_insert_ok, hcase,
        ResourceEntry.resource, hw, model_resource]
    | none =>
      simp [Resolver.resolve_model, Resolver.get_or_insert_ok, hcase,
        ResourceEntry.resource, model_resource]
  · cases hcase : r.lookup (.Model costume) with
    | some w =>
      have hcan := Resolver.lookup_canonical hr hcase
      have hw : w = model_resource costume := (Option.some.inj hcan).symm
      simp [Resolver.resolve_model, Resolver.get_or_insert_ok, hcase,
        ResourceEntry.resource]
    | none =>
      have hafter : Resolver.lookup ⟨(ResourceKey.Model costume, model_resource costume) ::
          r.resource⟩ (.Model costume) = some (model_resource costume) := by
        rw [Resolver.lookup_cons]
        simp
      simp [Resolver.resolve_model, Resolver.get_or_insert_ok, hcase, hafter,
        ResourceEntry.resource]

theorem claim_C7_resolve_model_witness :
    (Resolver.new.get_or_insert (.Model "a") (fun _ => .ok (model_resource "a"))).1 =
      .ok (Resolver.new.resolve_model "a").1 ∧
    (Resolver.new.resolve_model "a").1.resource =
      ⟨.Figure,
        BESTDORI_ASSET_URL_MODEL ++ "a" ++ "_rip/" ++ BESTDORI_ASSET_URL_MODEL_BUILDER,
        "a" ++ "/"⟩ ∧
    ((Resolver.new.resolve_model "a").2.resolve_model "a").1.resource =
      (Resolver.new.resolve_model "a").1.resource :=
  claim_C7_resolve_model Resolver.new "a" Resolver.inv_new

/-- C8: every one of the nine cancel-flag store sites in the crate stores the
literal `true`, so a single write always leaves the flag `true`, and no
sequence of the system's cancel-flag writes ever takes a flag that is `true`
back to `false`. -/
theorem claim_C8_cancel_flags_monotone :
    (∀ (s : CancelWriteSite) (b : Bool), applyCancelWrite s b = true) ∧
    (∀ (sites : List CancelWriteSite) (b : Bool), b = true →
      applyCancelWrites sites b = true) := by
  constructor
  · intro s b
    cases s <;> rfl
  · intro sites
    induction sites with
    | nil => intro b h; exact h
    | cons site rest ih =>
      intro b _
      have hstep : applyCancelWrites (site :: rest) b =
          applyCancelWrites rest (applyCancelWrite site b) := rfl
      rw [hstep]
      apply ih
      cases site <;> rfl

theorem claim_C8_cancel_flags_monotone_witness :
    applyCancelWrites [.downloadPoolCancel, .downloadPipelineCancel] true = true :=
  claim_C8_cancel_flags_monotone.2 [.downloadPoolCancel, .downloadPipelineCancel] true rfl

/-- C9: when a descriptor does not resolve under its category, `resolve_normal`
returns the `ResolveError` carrying that category and descriptor and leaves the
resolver unchanged (no cache entry is inserted for the failing key), and from a
fresh resolver every call for that key - under any interleaving of other
calls - yields that same error and never observes the key as occupied. -/
theorem claim_C9_resolve_error_no_insert :
    ∀ (r : Resolver) (res : BResource) (kind : RResourceType),
      r.Inv → resolve res kind = none →
      r.resolve_normal res kind = (.error ⟨kind, res⟩, r) ∧
      (∀ cs, ∀ o ∈ Resolver.new.outcomesFor cs (.Normal res kind),
        o = .failed ⟨kind, res⟩) := by
  intro r res kind hr hres
  have hnone : r.lookup (.Normal res kind) = none := by
    cases hcase : r.lookup (.Normal res kind) with
    | none => rfl
    | some v =>
      have hcan := Resolver.lookup_canonical hr hcase
      have : resolve res kind = some v := hcan
      rw [hres] at this
      cases this
  constructor
  · simp [Resolver.resolve_normal, Resolver.get_or_insert, hnone, hres]
  · intro cs o ho
    exact Resolver.outcomesFor_unresolvable cs Resolver.new res kind
      Resolver.inv_new hres rfl o ho

theorem claim_C9_resolve_error_no_insert_witness :
    Resolver.new.resolve_normal ⟨.Common, .Url "u"⟩ .Image =
      (.error ⟨.Image, ⟨.Common, .Url "u"⟩⟩, Resolver.new) ∧
    CallOutcome.failed ⟨.Image, ⟨.Common, .Url "u"⟩⟩ =
      CallOutcome.failed ⟨.Image, ⟨.Common, .Url "u"⟩⟩ :=
  ⟨(claim_C9_resolve_error_no_insert Resolver.new ⟨.Common, .Url "u"⟩ .Image
      Resolver.inv_new rfl).1,
    (claim_C9_resolve_error_no_insert Resolver.new ⟨.Common, .Url "u"⟩ .Image
      Resolver.inv_new rfl).2 [.normal ⟨.Common, .Url "u"⟩ .Image]
      (.failed ⟨.Image, ⟨.Common, .Url "u"⟩⟩) (by decide)⟩

/-- C10: whenever a worker run delivers a task's final result, the task object
is dropped in the same run (its drop stores `true` into the shared cancel
flag), so the job handle's `is_finished` returns `true` once the result is
delivered; and `is_finished = true` does not distinguish a handle whose result
was delivered from one that was merely cancelled. -/
theorem claim_C10_drop_sets_flag :
    (∀ (oracle : Nat → Nat → AttemptOutcome) (rebuild : Nat → Bool)
        (fuel : Nat) (w : Worker) (id n : Nat) (ok : Bool),
        PoolEvent.sent id n ok ∈ (Worker.runDrain oracle rebuild fuel w).2 →
        PoolEvent.dropped id ∈ (Worker.runDrain oracle rebuild fuel w).2 ∧
        (handleAfterRun (Worker.runDrain oracle rebuild fuel w).2 id).is_finished = true) ∧
    (∃ h1 h2 : DownloadHandleM, h1.is_finished = true ∧ h2.is_finished = true ∧
      h1.received.isSome = true ∧ h2.received = none) := by
  constructor
  · intro oracle rebuild fuel w id n ok hmem
    have hdrop := Worker.runDrain_sent_dropped oracle rebuild fuel w id n ok hmem
    refine ⟨hdrop, ?_⟩
    simp only [handleAfterRun, DownloadHandleM.is_finished]
    rw [List.any_eq_true]
    exact ⟨PoolEvent.dropped id, hdrop, by simp⟩
  · exact ⟨handleAfterRun [.sent 5 3 false, .dropped 5] 5,
      DownloadHandleM.cancel ⟨false, none⟩, by decide, rfl, by decide, rfl⟩

theorem claim_C10_drop_sets_flag_witness :
    PoolEvent.dropped 7 ∈
      (Worker.runDrain allFail noRebuild 3 ⟨0, 0, 0, 0, [freshTask 7]⟩).2 ∧
    (handleAfterRun
        (Worker.runDrain allFail noRebuild 3 ⟨0, 0, 0, 0, [freshTask 7]⟩).2
        7).is_finished = true :=
  claim_C10_drop_sets_flag.1 allFail noRebuild 3 ⟨0, 0, 0, 0, [freshTask 7]⟩
    7 3 false (by decide)

end Bd2wg